import Mathlib

/-
Verification of the query-building core of the express-jobly repository:

  * helpers/sql.js      — sqlForPartialUpdate
  * models/company.js   — Company.getByFilter
  * models/job.js       — Job.getByFilter

The JavaScript functions are embedded shallowly.  A JS object (payload or
field map) is a list of key/value pairs in insertion order; a JS primitive
value is a `JsValue`; property access is `getProp`; JS truthiness is
`jsTruthy`; a thrown `BadRequestError msg` is `Except.error msg`.
-/

/-- A primitive JavaScript value as it appears in update and filter payloads:
a string, a number (modelled as a rational), a boolean, or null. -/
inductive JsValue : Type
  | str (s : String)
  | num (q : ℚ)
  | bool (b : Bool)
  | null
  deriving DecidableEq

/-- JS truthiness of a primitive value: the empty string, the number 0,
`false` and `null` are falsy, everything else is truthy.  (`undefined`,
i.e. an absent property, is represented by `Option.none` at use sites.) -/
def jsTruthy : JsValue → Bool
  | JsValue.str s => decide (s ≠ "")
  | JsValue.num q => decide (q ≠ 0)
  | JsValue.bool b => b
  | JsValue.null => false

/-- The decimal digit character for `n < 10` (used by `natRepr`). -/
def digitChar : Nat → Char
  | 0 => '0'
  | 1 => '1'
  | 2 => '2'
  | 3 => '3'
  | 4 => '4'
  | 5 => '5'
  | 6 => '6'
  | 7 => '7'
  | 8 => '8'
  | 9 => '9'
  | _ => '*'

/-- Fuel-driven accumulator producing the decimal digits of `n` in front of
`acc`; the fuel is an upper bound on the number of digits (any fuel ≥ the
digit count gives the same result). -/
def natDigsCore : Nat → Nat → List Char → List Char
  | 0, _, acc => acc
  | fuel + 1, n, acc =>
      if n / 10 = 0 then digitChar (n % 10) :: acc
      else natDigsCore fuel (n / 10) (digitChar (n % 10) :: acc)

/-- Decimal rendering of a natural number, as JS renders a nonnegative
integer when interpolated into a template string. -/
def natRepr (n : Nat) : String := String.mk (natDigsCore (n + 1) n [])

/-- String rendering of a JS number.  Integer values render in decimal
exactly as JS does; a non-integer rational renders as "num/den" (no claim
in this development depends on the rendering of a non-integer number, and
the code embedding and the spec-side definitions share this function, so
the choice cancels out in every refinement statement). -/
def numToStr (q : ℚ) : String :=
  (if q.num < 0 then "-" else "") ++ natRepr q.num.natAbs ++
    (if q.den = 1 then "" else "/" ++ natRepr q.den)

/-- Template-string interpolation of a primitive JS value. -/
def jsToStr : JsValue → String
  | JsValue.str s => s
  | JsValue.num q => numToStr q
  | JsValue.bool b => if b then "true" else "false"
  | JsValue.null => "null"

/-- JS property access `o[k]` on an object represented as an insertion-ordered
association list; `none` plays the role of `undefined`. -/
def getProp (o : List (String × JsValue)) (k : String) : Option JsValue :=
  (o.find? (fun kv => kv.1 == k)).map (fun kv => kv.2)

/-- The JS comparison `a < b` on possibly-absent operands, restricted to the
domain the claims quantify over: an absent operand (`undefined`) makes the
comparison false, exactly as in JS, and two numbers compare numerically.
Comparisons where a present operand is not a number are modelled as false;
every theorem below that depends on this comparison carries a hypothesis
keeping the present operands numeric, so the model is exact on the
theorems' domain. -/
def jsLtOpt : Option JsValue → Option JsValue → Bool
  | some (JsValue.num a), some (JsValue.num b) => decide (a < b)
  | _, _ => false

/-- The JS comparison `a >= c` of a possibly-absent property against a
numeric constant: false when the property is absent (`undefined >= c` is
false in JS), numeric when the property is a number, and modelled as false
otherwise (see `jsLtOpt` for the domain discipline). -/
def jsGeOpt : Option JsValue → ℚ → Bool
  | some (JsValue.num a), c => decide (a ≥ c)
  | _, _ => false

/-- `Array.prototype.join(sep)`: the elements concatenated with `sep`
between consecutive elements (empty string for the empty array). -/
def joinSep (sep : String) : List String → String
  | [] => ""
  | [x] => x
  | x :: y :: t => x ++ sep ++ joinSep sep (y :: t)

/-- Column-name resolution inside `sqlForPartialUpdate`: the JS expression
`jsToSql[colName] || colName`, i.e. the mapped value (interpolated to a
string) when the key is present with a truthy value, and the key itself
otherwise. -/
def resolveCol (jsToSql : List (String × JsValue)) (colName : String) : String :=
  match getProp jsToSql colName with
  | some v => if jsTruthy v then jsToStr v else colName
  | none => colName

/-- helpers/sql.js `sqlForPartialUpdate(dataToUpdate, jsToSql)`.
`Object.keys` / `Object.values` of the payload are the key resp. value
components of the entry list; the Ith column is rendered as
`"<resolved>"=$<i+1>`, the columns are joined with ", ", and an empty
payload throws `BadRequestError("No data")`. -/
def sqlForPartialUpdate (dataToUpdate jsToSql : List (String × JsValue)) :
    Except String (String × List JsValue) :=
  let keys := dataToUpdate.map Prod.fst
  if keys.length = 0 then Except.error "No data"
  else
    let cols := keys.enum.map
      (fun p => "\"" ++ resolveCol jsToSql p.2 ++ "\"=$" ++ natRepr (p.1 + 1))
    Except.ok (joinSep ", " cols, dataToUpdate.map Prod.snd)

/-- One `if (filters.k) { values.push(f(v)); whereFilters.push(pre + "$" +
values.length) }` block of the getByFilter methods.  The state is the pair
(values, whereFilters); the placeholder index is the length of `values`
just after the push, exactly as in the source. -/
def pushFilter (st : List JsValue × List String) (v? : Option JsValue)
    (toVal : JsValue → JsValue) (pre : String) : List JsValue × List String :=
  match v? with
  | some v =>
      if jsTruthy v then
        let vals := st.1 ++ [toVal v]
        (vals, st.2 ++ [pre ++ natRepr vals.length])
      else st
  | none => st

/-- The companies filter allow-list check for one key: the negation of
`key !== "name" & key !== "maxEmployees" & key !== "minEmployees"`. -/
def companyKeyOk (k : String) : Bool :=
  k == "name" || k == "maxEmployees" || k == "minEmployees"

/-- models/company.js `Company.getByFilter(filters)`, up to the database
call: the returned pair is the WHERE-clause fragment
`whereFilters.join(" AND ")` spliced into the fixed SELECT shell (see
`companyQueryString`) together with the bound values. -/
def companyGetByFilter (filters : List (String × JsValue)) :
    Except String (String × List JsValue) :=
  if !(filters.all (fun kv => companyKeyOk kv.1)) then
    Except.error "Invalid filters included"
  else if jsLtOpt (getProp filters "maxEmployees") (getProp filters "minEmployees") then
    Except.error "Max/min employees filters are not valid"
  else
    let st0 : List JsValue × List String := ([], [])
    let st1 := pushFilter st0 (getProp filters "name")
      (fun v => JsValue.str ("%" ++ jsToStr v ++ "%")) "name ILIKE $"
    let st2 := pushFilter st1 (getProp filters "maxEmployees") (fun v => v) "num_employees <= $"
    let st3 := pushFilter st2 (getProp filters "minEmployees") (fun v => v) "num_employees >= $"
    Except.ok (joinSep " AND " st3.2, st3.1)

/-- The full `queryString` Company.getByFilter passes to `db.query`: the
fixed SELECT shell with the built WHERE fragment appended. -/
def companyQueryString (whereClause : String) : String :=
  "SELECT handle, name, description, num_employees as \"numEmployees\", logo_URL AS \"logoUrl\" FROM companies WHERE "
    ++ whereClause

/-- The jobs filter allow-list check for one key: the negation of
`key !== "title" & key !== "minSalary" & key !== "hasEquity"`. -/
def jobKeyOk (k : String) : Bool :=
  k == "title" || k == "minSalary" || k == "hasEquity"

/-- models/job.js `Job.getByFilter(filters)`, up to the database call:
allow-list validation, then the `filters.equity >= 0.1` guard, then the
three building blocks (`title`, `minSalary`, and the parameterless
`hasEquity === true` fragment), joined with " AND ". -/
def jobGetByFilter (filters : List (String × JsValue)) :
    Except String (String × List JsValue) :=
  if !(filters.all (fun kv => jobKeyOk kv.1)) then
    Except.error "Invalid filters included"
  else if jsGeOpt (getProp filters "equity") (mkRat 1 10) then
    Except.error "Invalid equity"
  else
    let st0 : List JsValue × List String := ([], [])
    let st1 := pushFilter st0 (getProp filters "title")
      (fun v => JsValue.str ("%" ++ jsToStr v ++ "%")) "title ILIKE $"
    let st2 := pushFilter st1 (getProp filters "minSalary") (fun v => v) "salary >= $"
    let st3 :=
      if getProp filters "hasEquity" = some (JsValue.bool true) then
        (st2.1, st2.2 ++ ["equity IS NOT NULL AND equity > 0"])
      else st2
    Except.ok (joinSep " AND " st3.2, st3.1)

/-- The full `queryString` Job.getByFilter passes to `db.query`. -/
def jobQueryString (whereClause : String) : String :=
  "SELECT title, salary, equity, company_handle as \"companyHandle\" FROM jobs WHERE " ++ whereClause

instance exceptDecEq {ε α : Type} [DecidableEq ε] [DecidableEq α] :
    DecidableEq (Except ε α) := fun x y =>
  match x, y with
  | Except.error a, Except.error b =>
      if h : a = b then isTrue (by subst h; rfl)
      else isFalse (fun hc => by cases hc; exact h rfl)
  | Except.error _, Except.ok _ => isFalse (fun hc => Except.noConfusion hc)
  | Except.ok _, Except.error _ => isFalse (fun hc => Except.noConfusion hc)
  | Except.ok a, Except.ok b =>
      if h : a = b then isTrue (by subst h; rfl)
      else isFalse (fun hc => by cases hc; exact h rfl)

/-
Spec-side definitions.  Each follows the wording of the specification (or
of a claim) rather than the source, so that the theorems below genuinely
compare two independent formulations.
-/

/-- Claim-literal column resolution: the mapped value whenever the key is
present in the map, the key itself only when the key is absent. -/
def resolveColSpecLit (columnMap : List (String × JsValue)) (k : String) : String :=
  match getProp columnMap k with
  | some v => jsToStr v
  | none => k

/-- Spec-side assignment list: with `i` keys already rendered, the next key
`k` becomes `"<resolve k>"=$<i+1>` and the rest follow with the index
advanced. -/
def assignmentsFrom (resolve : String → String) : Nat → List String → List String
  | _, [] => []
  | i, k :: ks =>
      ("\"" ++ resolve k ++ "\"=$" ++ natRepr (i + 1)) :: assignmentsFrom resolve (i + 1) ks

/-- The SET clause and value list as the claim describes them, with the
claim-literal (presence-based) column resolution. -/
def sqlForPartialUpdateSpecLit (d m : List (String × JsValue)) : String × List JsValue :=
  (joinSep ", " (assignmentsFrom (resolveColSpecLit m) 0 (d.map Prod.fst)), d.map Prod.snd)

/-- The SET clause and value list as the amended claim describes them: the
column resolution falls back to the key whenever the mapped value is
absent or falsy (`resolveCol`). -/
def sqlForPartialUpdateSpecAmended (d m : List (String × JsValue)) : String × List JsValue :=
  (joinSep ", " (assignmentsFrom (resolveCol m) 0 (d.map Prod.fst)), d.map Prod.snd)

/-- A property read that yields the value only when it is present and
truthy — the condition under which a `if (filters.k)` building block
fires. -/
def truthyProp (f : List (String × JsValue)) (k : String) : Option JsValue :=
  match getProp f k with
  | some v => if jsTruthy v then some v else none
  | none => none

/-- Spec-side numbering of WHERE-clause parts.  A part is a clause prefix
together with an optional bound value: with `n` values already bound, a
valued part renders as `pre ++ "$" ++ natRepr (n+1)` and binds its value,
and a value-less part contributes its prefix verbatim and binds nothing. -/
def buildParts : Nat → List (String × Option JsValue) → List String × List JsValue
  | _, [] => ([], [])
  | n, (pre, some v) :: ps =>
      let r := buildParts (n + 1) ps
      ((pre ++ "$" ++ natRepr (n + 1)) :: r.1, v :: r.2)
  | n, (pre, none) :: ps =>
      let r := buildParts n ps
      (pre :: r.1, r.2)

/-- Claim-literal parts for the companies builder: every present
recognized filter contributes, in the fixed order name, maxEmployees,
minEmployees. -/
def companyPartsLit (f : List (String × JsValue)) : List (String × Option JsValue) :=
  (match getProp f "name" with
   | some v => [("name ILIKE ", some (JsValue.str ("%" ++ jsToStr v ++ "%")))]
   | none => []) ++
  (match getProp f "maxEmployees" with
   | some v => [("num_employees <= ", some v)]
   | none => []) ++
  (match getProp f "minEmployees" with
   | some v => [("num_employees >= ", some v)]
   | none => [])

/-- Amended parts for the companies builder: a present filter contributes
only when its value is truthy. -/
def companyPartsTr (f : List (String × JsValue)) : List (String × Option JsValue) :=
  (match truthyProp f "name" with
   | some v => [("name ILIKE ", some (JsValue.str ("%" ++ jsToStr v ++ "%")))]
   | none => []) ++
  (match truthyProp f "maxEmployees" with
   | some v => [("num_employees <= ", some v)]
   | none => []) ++
  (match truthyProp f "minEmployees" with
   | some v => [("num_employees >= ", some v)]
   | none => [])

/-- Claim-literal companies BuiltQuery: the parts joined with " AND ". -/
def companyBuildLit (f : List (String × JsValue)) : String × List JsValue :=
  let r := buildParts 0 (companyPartsLit f)
  (joinSep " AND " r.1, r.2)

/-- Amended companies BuiltQuery. -/
def companyBuildTr (f : List (String × JsValue)) : String × List JsValue :=
  let r := buildParts 0 (companyPartsTr f)
  (joinSep " AND " r.1, r.2)

/-- Claim-literal parts for the jobs builder: title and minSalary
contribute when present, hasEquity contributes its parameterless fragment
exactly when its value is strictly the boolean true. -/
def jobPartsLit (f : List (String × JsValue)) : List (String × Option JsValue) :=
  (match getProp f "title" with
   | some v => [("title ILIKE ", some (JsValue.str ("%" ++ jsToStr v ++ "%")))]
   | none => []) ++
  (match getProp f "minSalary" with
   | some v => [("salary >= ", some v)]
   | none => []) ++
  (if getProp f "hasEquity" = some (JsValue.bool true) then
    [("equity IS NOT NULL AND equity > 0", none)]
  else [])

/-- Amended parts for the jobs builder: title and minSalary contribute
only when present with a truthy value; hasEquity is unchanged (the strict
`=== true` check never fires on a falsy value anyway). -/
def jobPartsTr (f : List (String × JsValue)) : List (String × Option JsValue) :=
  (match truthyProp f "title" with
   | some v => [("title ILIKE ", some (JsValue.str ("%" ++ jsToStr v ++ "%")))]
   | none => []) ++
  (match truthyProp f "minSalary" with
   | some v => [("salary >= ", some v)]
   | none => []) ++
  (if getProp f "hasEquity" = some (JsValue.bool true) then
    [("equity IS NOT NULL AND equity > 0", none)]
  else [])

/-- Claim-literal jobs BuiltQuery. -/
def jobBuildLit (f : List (String × JsValue)) : String × List JsValue :=
  let r := buildParts 0 (jobPartsLit f)
  (joinSep " AND " r.1, r.2)

/-- Amended jobs BuiltQuery. -/
def jobBuildTr (f : List (String × JsValue)) : String × List JsValue :=
  let r := buildParts 0 (jobPartsTr f)
  (joinSep " AND " r.1, r.2)

/-
Positional-placeholder extraction.  `extractPH` reads a clause string the
way the SQL lexer does as far as placeholders are concerned: text between
double quotes is a quoted identifier and is skipped, and outside quotes a
'$' followed by a maximal nonempty run of digits is a positional
placeholder.  The scanner is a state machine over the character list; the
state is (inside-quotes?, digits collected since the last '$', reversed).
-/

/-- Emission of a pending placeholder: a nonempty reversed digit run
becomes the placeholder's digit string. -/
def phEmit : Option (List Char) → List String
  | some (c :: cs) => [String.mk ((c :: cs).reverse)]
  | _ => []

/-- One left-to-right pass of the placeholder scanner, returning the
placeholders emitted and the final state. -/
def phProc : List Char → Bool × Option (List Char) →
    List String × (Bool × Option (List Char))
  | [], s => ([], s)
  | c :: cs, (true, p) =>
      if c = '"' then phProc cs (false, p) else phProc cs (true, p)
  | c :: cs, (false, p) =>
      if c = '"' then
        let r := phProc cs (true, none)
        (phEmit p ++ r.1, r.2)
      else if c = '$' then
        let r := phProc cs (false, some [])
        (phEmit p ++ r.1, r.2)
      else if c.isDigit then
        match p with
        | some ds => phProc cs (false, some (c :: ds))
        | none => phProc cs (false, none)
      else
        let r := phProc cs (false, none)
        (phEmit p ++ r.1, r.2)

/-- The digit strings of the positional placeholders of a clause, in
order of appearance, with double-quoted identifier spans skipped. -/
def extractPH (s : String) : List String :=
  let r := phProc s.data (false, none)
  r.1 ++ phEmit r.2.2

example :
    sqlForPartialUpdate
      [("firstname", JsValue.str "Max"), ("lastname", JsValue.str "Smith")]
      [("firstname", JsValue.str "first_name"), ("lastname", JsValue.str "last_name")] =
    Except.ok ("\"first_name\"=$1, \"last_name\"=$2",
      [JsValue.str "Max", JsValue.str "Smith"]) := by decide

example : sqlForPartialUpdate [] [("a", JsValue.str "b")] = Except.error "No data" := by decide

example : companyGetByFilter [] = Except.ok ("", []) := by decide

example :
    companyGetByFilter [("name", JsValue.str "net"), ("minEmployees", JsValue.num 10)] =
    Except.ok ("name ILIKE $1 AND num_employees >= $2",
      [JsValue.str "%net%", JsValue.num 10]) := by decide

example : companyGetByFilter [("type", JsValue.num 12)] =
    Except.error "Invalid filters included" := by decide

example :
    companyGetByFilter [("maxEmployees", JsValue.num 5), ("minEmployees", JsValue.num 10)] =
    Except.error "Max/min employees filters are not valid" := by decide

example : jobGetByFilter [("hasEquity", JsValue.bool true)] =
    Except.ok ("equity IS NOT NULL AND equity > 0", []) := by decide

example : jobGetByFilter [("hasEquity", JsValue.bool false)] = Except.ok ("", []) := by decide

example :
    jobGetByFilter [("title", JsValue.str "j"), ("minSalary", JsValue.num 20)] =
    Except.ok ("title ILIKE $1 AND salary >= $2",
      [JsValue.str "%j%", JsValue.num 20]) := by decide

example : jobGetByFilter [("equity", JsValue.num (mkRat 1 5))] =
    Except.error "Invalid filters included" := by decide

example : extractPH "\"first_name\"=$1, \"last_name\"=$2" = ["1", "2"] := by decide

example : extractPH "name ILIKE $1 AND num_employees >= $2" = ["1", "2"] := by decide

example : extractPH "equity IS NOT NULL AND equity > 0" = [] := by decide

example : extractPH "\"a$7b\"=$1" = ["1"] := by decide

example : extractPH "" = [] := by decide

example : companyBuildLit [("maxEmployees", JsValue.num 0)] =
    ("num_employees <= $1", [JsValue.num 0]) := by decide

example : companyBuildTr [("maxEmployees", JsValue.num 0)] = ("", []) := by decide

example :
    jobBuildTr [("minSalary", JsValue.num 20), ("title", JsValue.str "j"),
      ("hasEquity", JsValue.bool true)] =
    ("title ILIKE $1 AND salary >= $2 AND equity IS NOT NULL AND equity > 0",
      [JsValue.str "%j%", JsValue.num 20]) := by decide

example :
    sqlForPartialUpdateSpecLit [("a", JsValue.num 1)] [("a", JsValue.str "")] =
    ("\"\"=$1", [JsValue.num 1]) := by decide

/-
Lemmas about the placeholder scanner and the decimal renderer.
-/
theorem str_data_append (s t : String) : (s ++ t).data = s.data ++ t.data := rfl

theorem str_mk_data (s : String) : String.mk s.data = s := rfl

example : ("\"" ++ String.mk ['a'] ++ "\"=$" ++ natRepr 1).data =
    ['"'] ++ (['a'] ++ (['"', '=', '$'] ++ (natRepr 1).data)) := by
  simp [str_data_append]

theorem phProc_append (l2 : List Char) :
    ∀ (l1 : List Char) (s : Bool × Option (List Char)),
      phProc (l1 ++ l2) s =
        ((phProc l1 s).1 ++ (phProc l2 (phProc l1 s).2).1,
         (phProc l2 (phProc l1 s).2).2) := by
  intro l1
  induction l1 with
  | nil => intro s; simp [phProc]
  | cons c cs ih =>
      intro s
      obtain ⟨q, p⟩ := s
      cases q with
      | false =>
          by_cases h1 : c = '"'
          · simp [phProc, h1, ih, List.append_assoc]
          · by_cases h2 : c = '$'
            · simp [phProc, h1, h2, ih, List.append_assoc]
            · by_cases h3 : c.isDigit
              · cases p with
                | none => simp [phProc, h1, h2, h3, ih]
                | some ds => simp [phProc, h1, h2, h3, ih]
              · simp [phProc, h1, h2, h3, ih, List.append_assoc]
      | true =>
          by_cases h1 : c = '"'
          · simp [phProc, h1, ih]
          · simp [phProc, h1, ih]

theorem phProc_inQuote (p : Option (List Char)) :
    ∀ l : List Char, '"' ∉ l → phProc l (true, p) = ([], (true, p)) := by
  intro l
  induction l with
  | nil => intro _; rfl
  | cons c cs ih =>
      intro h
      have hc : ¬ c = '"' := fun he => h (he ▸ List.mem_cons_self c cs)
      have hcs : '"' ∉ cs := fun hm => h (List.mem_cons_of_mem c hm)
      simp [phProc, hc, ih hcs]

theorem phProc_digits :
    ∀ (l : List Char) (acc : List Char), (∀ c ∈ l, c.isDigit = true) →
      phProc l (false, some acc) = ([], (false, some (l.reverse ++ acc))) := by
  intro l
  induction l with
  | nil => intro acc _; rfl
  | cons c cs ih =>
      intro acc h
      have hc : c.isDigit = true := h c (List.mem_cons_self c cs)
      have hq : ¬ c = '"' := fun he => by rw [he] at hc; exact absurd hc (by decide)
      have hd : ¬ c = '$' := fun he => by rw [he] at hc; exact absurd hc (by decide)
      have hcs : ∀ x ∈ cs, x.isDigit = true := fun x hx => h x (List.mem_cons_of_mem c hx)
      simp [phProc, hq, hd, hc, ih (c :: acc) hcs, List.append_assoc]

theorem phProc_comma_space (p : Option (List Char)) :
    phProc [',', ' '] (false, p) = (phEmit p, (false, none)) := by
  rcases p with _ | (_ | ⟨c, cs⟩) <;> rfl

theorem digitChar_isDigit (m : Nat) (h : m < 10) : (digitChar m).isDigit = true := by
  interval_cases m <;> decide

theorem natDigsCore_digits :
    ∀ (fuel n : Nat) (acc : List Char), (∀ c ∈ acc, c.isDigit = true) →
      ∀ c ∈ natDigsCore fuel n acc, c.isDigit = true := by
  intro fuel
  induction fuel with
  | zero => intro n acc h; simpa [natDigsCore] using h
  | succ fuel ih =>
      intro n acc h
      have hd : (digitChar (n % 10)).isDigit = true :=
        digitChar_isDigit _ (Nat.mod_lt _ (by norm_num))
      have hacc : ∀ c ∈ (digitChar (n % 10) :: acc), c.isDigit = true := by
        intro c hc
        rcases List.mem_cons.mp hc with hc | hc
        · rw [hc]; exact hd
        · exact h c hc
      by_cases h10 : n / 10 = 0
      · simpa [natDigsCore, h10] using hacc
      · simpa [natDigsCore, h10] using ih (n / 10) _ hacc

theorem natDigsCore_ne_nil :
    ∀ (fuel n : Nat) (acc : List Char), acc ≠ [] → natDigsCore fuel n acc ≠ [] := by
  intro fuel
  induction fuel with
  | zero => intro n acc h; simpa [natDigsCore] using h
  | succ fuel ih =>
      intro n acc h
      by_cases h10 : n / 10 = 0
      · simp [natDigsCore, h10]
      · simpa [natDigsCore, h10] using ih (n / 10) _ (by simp)

theorem natRepr_digits (n : Nat) : ∀ c ∈ (natRepr n).data, c.isDigit = true := by
  have : (natRepr n).data = natDigsCore (n + 1) n [] := rfl
  rw [this]
  exact natDigsCore_digits (n + 1) n [] (by simp)

theorem natRepr_ne_nil (n : Nat) : (natRepr n).data ≠ [] := by
  have : (natRepr n).data = natDigsCore (n + 1) n [] := rfl
  rw [this]
  show natDigsCore (n + 1) n [] ≠ []
  by_cases h10 : n / 10 = 0
  · simp [natDigsCore, h10]
  · simpa [natDigsCore, h10] using natDigsCore_ne_nil n (n / 10) _ (by simp)

theorem phEmit_some_ne_nil (l : List Char) (h : l ≠ []) :
    phEmit (some l) = [String.mk l.reverse] := by
  cases l with
  | nil => exact absurd rfl h
  | cons c cs => rfl
theorem extractPH_eq (s : String) :
    extractPH s = (phProc s.data (false, none)).1 ++ phEmit (phProc s.data (false, none)).2.2 := rfl

theorem joinSep_cons_of_ne_nil (sep x : String) (l : List String) (h : l ≠ []) :
    joinSep sep (x :: l) = x ++ sep ++ joinSep sep l := by
  cases l with
  | nil => exact absurd rfl h
  | cons y t => rfl

theorem phProc_assign (nm : String) (j : Nat) (h : '"' ∉ nm.data) :
    phProc ("\"" ++ nm ++ "\"=$" ++ natRepr j).data (false, none) =
      ([], (false, some (natRepr j).data.reverse)) := by
  have hsplit : ("\"" ++ nm ++ "\"=$" ++ natRepr j).data =
      ['"'] ++ (nm.data ++ (['"', '=', '$'] ++ (natRepr j).data)) := by
    simp [str_data_append]
  rw [hsplit, phProc_append]
  have h1 : phProc ['"'] (false, none) = ([], (true, none)) := rfl
  rw [h1]
  simp only []
  rw [phProc_append, phProc_inQuote none nm.data h]
  simp only []
  rw [phProc_append]
  have h2 : phProc ['"', '=', '$'] (true, none) = ([], (false, some [])) := rfl
  rw [h2]
  simp only []
  rw [phProc_digits _ [] (natRepr_digits j)]
  simp [phEmit]

theorem extractPH_joinSep_assignments (res : String → String) :
    ∀ (ks : List String) (i : Nat), (∀ k ∈ ks, '"' ∉ (res k).data) →
      extractPH (joinSep ", " (assignmentsFrom res i ks)) =
        (List.range' (i + 1) ks.length).map natRepr := by
  intro ks
  induction ks with
  | nil => intro i _; rfl
  | cons k ks ih =>
      intro i h
      have hk : '"' ∉ (res k).data := h k (List.mem_cons_self k ks)
      have hks : ∀ x ∈ ks, '"' ∉ (res x).data := fun x hx => h x (List.mem_cons_of_mem k hx)
      have hrevnil : (natRepr (i + 1)).data.reverse ≠ [] := by
        simpa using natRepr_ne_nil (i + 1)
      cases ks with
      | nil =>
          simp only [assignmentsFrom, joinSep, extractPH_eq]
          rw [phProc_assign _ _ hk]
          simp [phEmit_some_ne_nil _ hrevnil, str_mk_data, List.range']
      | cons k2 ks2 =>
          have hrest := ih (i + 1) hks
          have hstep : assignmentsFrom res i (k :: k2 :: ks2) =
              ("\"" ++ res k ++ "\"=$" ++ natRepr (i + 1)) ::
                assignmentsFrom res (i + 1) (k2 :: ks2) := rfl
          rw [hstep, joinSep_cons_of_ne_nil _ _ _ (by simp [assignmentsFrom])]
          rw [extractPH_eq]
          have hsplit :
              (("\"" ++ res k ++ "\"=$" ++ natRepr (i + 1)) ++ ", " ++
                joinSep ", " (assignmentsFrom res (i + 1) (k2 :: ks2))).data =
              ("\"" ++ res k ++ "\"=$" ++ natRepr (i + 1)).data ++
                ([',', ' '] ++
                  (joinSep ", " (assignmentsFrom res (i + 1) (k2 :: ks2))).data) := by
            simp [str_data_append]
          rw [hsplit, phProc_append, phProc_assign _ _ hk]
          simp only []
          rw [phProc_append, phProc_comma_space]
          simp only []
          rw [phEmit_some_ne_nil _ hrevnil, List.reverse_reverse, str_mk_data]
          rw [extractPH_eq] at hrest
          simp only [List.length_cons] at hrest
          simp only [List.nil_append, List.append_assoc, List.singleton_append, List.cons_append]
          rw [hrest]
          simp only [List.length_cons]
          rw [List.range'_succ (i + 1) (ks2.length + 1) 1]
          simp
theorem enumFrom_map_assign (m : List (String × JsValue)) :
    ∀ (ks : List String) (i : Nat),
      (List.enumFrom i ks).map
        (fun p => "\"" ++ resolveCol m p.2 ++ "\"=$" ++ natRepr (p.1 + 1)) =
      assignmentsFrom (resolveCol m) i ks := by
  intro ks
  induction ks with
  | nil => intro i; rfl
  | cons k ks ih => intro i; simp [List.enumFrom, assignmentsFrom, ih]

theorem sqlForPartialUpdate_ok (d m : List (String × JsValue)) (h : d ≠ []) :
    sqlForPartialUpdate d m = Except.ok (sqlForPartialUpdateSpecAmended d m) := by
  unfold sqlForPartialUpdate sqlForPartialUpdateSpecAmended
  have hlen : ¬ (d.map Prod.fst).length = 0 := by
    simpa [List.length_eq_zero] using h
  simp [hlen, List.enum, enumFrom_map_assign, h]

theorem sqlForPartialUpdate_empty (m : List (String × JsValue)) :
    sqlForPartialUpdate [] m = Except.error "No data" := rfl

/-- The building block of the getByFilter methods, re-expressed through
`truthyProp`: the block fires exactly when the property is present and
truthy, and the placeholder index is one more than the number of values
already bound. -/
theorem pushFilter_truthyProp (st : List JsValue × List String)
    (f : List (String × JsValue)) (k : String)
    (tv : JsValue → JsValue) (pre : String) :
    pushFilter st (getProp f k) tv pre =
      match truthyProp f k with
      | some v => (st.1 ++ [tv v], st.2 ++ [pre ++ natRepr (st.1.length + 1)])
      | none => st := by
  unfold pushFilter truthyProp
  cases getProp f k with
  | none => rfl
  | some v =>
      by_cases hv : jsTruthy v
      · simp [hv]
      · simp [hv]

/-- A present property forces its key to occur in the object. -/
theorem getProp_some_mem (f : List (String × JsValue)) (k : String) (v : JsValue)
    (h : getProp f k = some v) : ∃ kv ∈ f, kv.1 = k ∧ kv.2 = v := by
  unfold getProp at h
  cases hf : f.find? (fun kv => kv.1 == k) with
  | none => rw [hf] at h; exact absurd h (by simp)
  | some kv =>
      rw [hf] at h
      refine ⟨kv, List.mem_of_find?_eq_some hf, ?_, ?_⟩
      · have := List.find?_some hf
        simpa using this
      · simpa using h
theorem companyKeyOk_iff (k : String) :
    companyKeyOk k = true ↔ k ∈ (["name", "maxEmployees", "minEmployees"] : List String) := by
  simp [companyKeyOk, or_assoc]

theorem jobKeyOk_iff (k : String) :
    jobKeyOk k = true ↔ k ∈ (["title", "minSalary", "hasEquity"] : List String) := by
  simp [jobKeyOk, or_assoc]

theorem getProp_eq_none (f : List (String × JsValue)) (k : String)
    (h : ∀ kv ∈ f, kv.1 ≠ k) : getProp f k = none := by
  unfold getProp
  rw [List.find?_eq_none.mpr (fun kv hkv => by simpa using h kv hkv)]
  rfl

theorem jobValid_equity_none (f : List (String × JsValue))
    (h : ∀ kv ∈ f, jobKeyOk kv.1 = true) : getProp f "equity" = none :=
  getProp_eq_none f "equity" (fun kv hkv heq => by
    have hk := h kv hkv
    rw [heq] at hk
    exact absurd hk (by decide))

theorem companyGetByFilter_build (f : List (String × JsValue))
    (hall : f.all (fun kv => companyKeyOk kv.1) = true)
    (hlt : jsLtOpt (getProp f "maxEmployees") (getProp f "minEmployees") = false) :
    companyGetByFilter f = Except.ok (companyBuildTr f) := by
  have e1 : ("name ILIKE " : String) ++ "$" = "name ILIKE $" := rfl
  have e2 : ("num_employees <= " : String) ++ "$" = "num_employees <= $" := rfl
  have e3 : ("num_employees >= " : String) ++ "$" = "num_employees >= $" := rfl
  unfold companyGetByFilter companyBuildTr companyPartsTr
  rw [hall, hlt]
  simp only [Bool.not_true, Bool.false_eq_true, if_false, pushFilter_truthyProp]
  rcases h1 : truthyProp f "name" with _ | v1 <;>
  rcases h2 : truthyProp f "maxEmployees" with _ | v2 <;>
  rcases h3 : truthyProp f "minEmployees" with _ | v3 <;>
    simp [buildParts, joinSep, e1, e2, e3]

theorem jobGetByFilter_build (f : List (String × JsValue))
    (hall : f.all (fun kv => jobKeyOk kv.1) = true)
    (heq : getProp f "equity" = none) :
    jobGetByFilter f = Except.ok (jobBuildTr f) := by
  have e1 : ("title ILIKE " : String) ++ "$" = "title ILIKE $" := rfl
  have e2 : ("salary >= " : String) ++ "$" = "salary >= $" := rfl
  have hguard : jsGeOpt (getProp f "equity") (mkRat 1 10) = false := by rw [heq]; rfl
  unfold jobGetByFilter jobBuildTr jobPartsTr
  rw [hall, hguard]
  simp only [Bool.not_true, Bool.false_eq_true, if_false, pushFilter_truthyProp]
  rcases h1 : truthyProp f "title" with _ | v1 <;>
  rcases h2 : truthyProp f "minSalary" with _ | v2 <;>
  by_cases h3 : getProp f "hasEquity" = some (JsValue.bool true) <;>
    simp [h3, buildParts, joinSep, e1, e2]
theorem jsLtOpt_none_left (x : Option JsValue) : jsLtOpt none x = false := by
  cases x with
  | none => rfl
  | some v => cases v <;> rfl

theorem jsLtOpt_none_right (x : Option JsValue) : jsLtOpt x none = false := by
  cases x with
  | none => rfl
  | some v => cases v <;> rfl

/-- C1 counterexample: the claim's resolution rule ("the mapped column
whenever the key is present in the map") fails on the code.  With payload
{a: 1} and map {a: ""} the key "a" is present in the map, so the claim
prescribes setCols "\"\"=$1"; the code's falsy fallback
(`jsToSql[colName] || colName`) instead resolves the column to the key
itself and returns setCols "\"a\"=$1". -/
theorem c1_counterexample :
    sqlForPartialUpdate [("a", JsValue.num 1)] [("a", JsValue.str "")] ≠
      Except.ok (sqlForPartialUpdateSpecLit [("a", JsValue.num 1)] [("a", JsValue.str "")]) ∧
    sqlForPartialUpdate [("a", JsValue.num 1)] [("a", JsValue.str "")] =
      Except.ok ("\"a\"=$1", [JsValue.num 1]) ∧
    sqlForPartialUpdateSpecLit [("a", JsValue.num 1)] [("a", JsValue.str "")] =
      ("\"\"=$1", [JsValue.num 1]) :=
  ⟨by decide, by decide, by decide⟩

/-- C1 (amended): for every non-empty UpdatePayload and every FieldMap,
sqlForPartialUpdate returns the ", "-joined assignments in key order, the
Ith being `"<ci>"=$<i>` where ci is the mapped column when the key is
present in the map with a truthy value and the key itself otherwise, and
the values are the payload's values in the same key order. -/
theorem c1_setcols_values (d m : List (String × JsValue)) (h : d ≠ []) :
    sqlForPartialUpdate d m = Except.ok (sqlForPartialUpdateSpecAmended d m) :=
  sqlForPartialUpdate_ok d m h

/-- C1 witness: the amended theorem applied to the payload and field map of
the repository's own unit test. -/
theorem c1_witness :
    sqlForPartialUpdate
        [("firstname", JsValue.str "Max"), ("lastname", JsValue.str "Smith")]
        [("firstname", JsValue.str "first_name"), ("lastname", JsValue.str "last_name")] =
      Except.ok (sqlForPartialUpdateSpecAmended
        [("firstname", JsValue.str "Max"), ("lastname", JsValue.str "Smith")]
        [("firstname", JsValue.str "first_name"), ("lastname", JsValue.str "last_name")]) :=
  c1_setcols_values _ _ (by decide)

/-- C3: sqlForPartialUpdate throws BadRequestError("No data") exactly on
the empty payload, whatever the field map holds, and returns normally on
every payload with at least one key. -/
theorem c3_empty_payload (d m : List (String × JsValue)) :
    (d = [] → sqlForPartialUpdate d m = Except.error "No data") ∧
    (d ≠ [] → ∃ r, sqlForPartialUpdate d m = Except.ok r) := by
  constructor
  · intro h
    subst h
    exact sqlForPartialUpdate_empty m
  · intro h
    exact ⟨_, sqlForPartialUpdate_ok d m h⟩

/-- C3 witness: both directions at concrete inputs — the empty payload
errors, a one-key payload returns normally. -/
theorem c3_witness :
    sqlForPartialUpdate [] [("firstname", JsValue.str "first_name")] =
      Except.error "No data" ∧
    ∃ r, sqlForPartialUpdate [("age", JsValue.num 32)] [] = Except.ok r :=
  ⟨(c3_empty_payload [] [("firstname", JsValue.str "first_name")]).1 rfl,
   (c3_empty_payload [("age", JsValue.num 32)] []).2 (by decide)⟩

/-- C9: on the empty filter payload both getByFilter builders pass
validation, raise nothing, and produce an empty WHERE fragment with an
empty value list. -/
theorem c9_empty_filter_payload :
    companyGetByFilter [] = Except.ok ("", []) ∧
    jobGetByFilter [] = Except.ok ("", []) :=
  ⟨by decide, by decide⟩

/-- C10: the identity fallback of sqlForPartialUpdate fires whenever the
map's value for the key is falsy — also when the key is present but mapped
to "", 0, false or null — not only when the key is absent; in particular
payload {a: 1} with map {a: ""} yields "a"=$1. -/
theorem c10_falsy_fallback :
    (∀ (m : List (String × JsValue)) (k : String) (v : JsValue),
        getProp m k = some v → jsTruthy v = false → resolveCol m k = k) ∧
    sqlForPartialUpdate [("a", JsValue.num 1)] [("a", JsValue.str "")] =
      Except.ok ("\"a\"=$1", [JsValue.num 1]) := by
  constructor
  · intro m k v hv hf
    simp [resolveCol, hv, hf]
  · decide

/-- C10 witness: the falsy-fallback law applied to the map {a: ""}, whose
value for "a" is present and falsy. -/
theorem c10_witness :
    resolveCol [("a", JsValue.str "")] "a" = "a" :=
  c10_falsy_fallback.1 [("a", JsValue.str "")] "a" (JsValue.str "") (by decide) (by decide)
/-- C4: Company.getByFilter fails with BadRequestError("Invalid filters
included") exactly when some key of the payload lies outside the
allow-list {name, minEmployees, maxEmployees}; when all keys are in the
allow-list that error is never raised (the result is then the second
semantic check's error or a normal return). -/
theorem c4_company_allowlist (f : List (String × JsValue)) :
    ((∃ kv ∈ f, kv.1 ∉ (["name", "maxEmployees", "minEmployees"] : List String)) →
        companyGetByFilter f = Except.error "Invalid filters included") ∧
    ((∀ kv ∈ f, kv.1 ∈ (["name", "maxEmployees", "minEmployees"] : List String)) →
        companyGetByFilter f ≠ Except.error "Invalid filters included") := by
  constructor
  · rintro ⟨kv, hmem, hbad⟩
    have hfalse : f.all (fun kv => companyKeyOk kv.1) = false :=
      List.all_eq_false.mpr ⟨kv, hmem, by simpa [companyKeyOk_iff] using hbad⟩
    unfold companyGetByFilter
    rw [hfalse]
    simp
  · intro hvalid
    have htrue : f.all (fun kv => companyKeyOk kv.1) = true :=
      List.all_eq_true.mpr (fun kv hkv => (companyKeyOk_iff kv.1).mpr (hvalid kv hkv))
    unfold companyGetByFilter
    rw [htrue]
    simp only [Bool.not_true, Bool.false_eq_true, if_false]
    split
    · intro hc
      exact absurd (Except.error.inj hc) (by decide)
    · intro hc
      exact Except.noConfusion hc

/-- C4 witness: the invalid key "type" is rejected, and a payload with
only allow-listed keys never sees the allow-list error. -/
theorem c4_witness :
    companyGetByFilter [("type", JsValue.num 12)] =
      Except.error "Invalid filters included" ∧
    companyGetByFilter [("name", JsValue.str "net")] ≠
      Except.error "Invalid filters included" :=
  ⟨(c4_company_allowlist [("type", JsValue.num 12)]).1 (by decide),
   (c4_company_allowlist [("name", JsValue.str "net")]).2 (by decide)⟩

/-- C7: on a companies FilterPayload (all keys allow-listed) holding both
maxEmployees and minEmployees as numbers with maxEmployees < minEmployees,
Company.getByFilter fails with BadRequestError("Max/min employees filters
are not valid"); when at most one of the two is present this error is
never raised (in JS a comparison against undefined is false). -/
theorem c7_company_minmax (f : List (String × JsValue)) :
    (∀ qmax qmin : ℚ,
        (∀ kv ∈ f, kv.1 ∈ (["name", "maxEmployees", "minEmployees"] : List String)) →
        getProp f "maxEmployees" = some (JsValue.num qmax) →
        getProp f "minEmployees" = some (JsValue.num qmin) →
        qmax < qmin →
        companyGetByFilter f = Except.error "Max/min employees filters are not valid") ∧
    ((getProp f "maxEmployees" = none ∨ getProp f "minEmployees" = none) →
        companyGetByFilter f ≠ Except.error "Max/min employees filters are not valid") := by
  constructor
  · intro qmax qmin hvalid hmax hmin hlt
    have htrue : f.all (fun kv => companyKeyOk kv.1) = true :=
      List.all_eq_true.mpr (fun kv hkv => (companyKeyOk_iff kv.1).mpr (hvalid kv hkv))
    have hltb : jsLtOpt (getProp f "maxEmployees") (getProp f "minEmployees") = true := by
      rw [hmax, hmin]
      simpa [jsLtOpt] using hlt
    unfold companyGetByFilter
    rw [htrue, hltb]
    simp
  · intro hnone
    have hltb : jsLtOpt (getProp f "maxEmployees") (getProp f "minEmployees") = false := by
      rcases hnone with h | h
      · rw [h]; exact jsLtOpt_none_left _
      · rw [h]; exact jsLtOpt_none_right _
    cases hall : f.all (fun kv => companyKeyOk kv.1) with
    | false =>
        unfold companyGetByFilter
        rw [hall]
        simp only [Bool.not_false, if_true]
        intro hc
        exact absurd (Except.error.inj hc) (by decide)
    | true =>
        unfold companyGetByFilter
        rw [hall, hltb]
        simp only [Bool.not_true, Bool.false_eq_true, if_false]
        intro hc
        exact Except.noConfusion hc

/-- C7 witness: {maxEmployees: 5, minEmployees: 10} is rejected with the
max/min error, and a payload lacking minEmployees never sees it. -/
theorem c7_witness :
    companyGetByFilter [("maxEmployees", JsValue.num 5), ("minEmployees", JsValue.num 10)] =
      Except.error "Max/min employees filters are not valid" ∧
    companyGetByFilter [("maxEmployees", JsValue.num 5)] ≠
      Except.error "Max/min employees filters are not valid" :=
  ⟨(c7_company_minmax [("maxEmployees", JsValue.num 5), ("minEmployees", JsValue.num 10)]).1
      5 10 (by decide) (by decide) (by decide) (by decide),
   (c7_company_minmax [("maxEmployees", JsValue.num 5)]).2 (Or.inr (by decide))⟩

/-- C8 counterexample: a jobs payload containing the key equity (value
0.2 ≥ 0.1) is rejected by the allow-list validation, which runs first, so
the error is "Invalid filters included" and never the "Invalid equity" the
claim names. -/
theorem c8_counterexample :
    jobGetByFilter [("equity", JsValue.num (mkRat 1 5))] =
      Except.error "Invalid filters included" ∧
    (Except.error "Invalid filters included" :
        Except String (String × List JsValue)) ≠ Except.error "Invalid equity" :=
  ⟨by decide, by decide⟩

/-- C8 (amended): a jobs FilterPayload containing the key equity (with any
numeric value ≥ 0.1) fails with BadRequestError, but with the allow-list
message "Invalid filters included" — equity is not an allow-listed jobs
filter, validation runs before the equity guard, and the guard's "Invalid
equity" error is unreachable on every payload. -/
theorem c8_equity_guard_dead (f : List (String × JsValue)) :
    (∀ q : ℚ, getProp f "equity" = some (JsValue.num q) → mkRat 1 10 ≤ q →
        jobGetByFilter f = Except.error "Invalid filters included") ∧
    jobGetByFilter f ≠ Except.error "Invalid equity" := by
  constructor
  · intro q hq _
    obtain ⟨kv, hmem, hk, _⟩ := getProp_some_mem f "equity" _ hq
    have hfalse : f.all (fun kv => jobKeyOk kv.1) = false :=
      List.all_eq_false.mpr ⟨kv, hmem, by rw [hk]; decide⟩
    unfold jobGetByFilter
    rw [hfalse]
    simp
  · cases hall : f.all (fun kv => jobKeyOk kv.1) with
    | false =>
        unfold jobGetByFilter
        rw [hall]
        simp only [Bool.not_false, if_true]
        intro hc
        exact absurd (Except.error.inj hc) (by decide)
    | true =>
        rw [jobGetByFilter_build f hall (jobValid_equity_none f (List.all_eq_true.mp hall))]
        intro hc
        exact Except.noConfusion hc

/-- C8 witness: the amended theorem applied to {equity: 0.2}. -/
theorem c8_witness :
    jobGetByFilter [("equity", JsValue.num (mkRat 1 5))] =
      Except.error "Invalid filters included" :=
  (c8_equity_guard_dead [("equity", JsValue.num (mkRat 1 5))]).1 (mkRat 1 5) (by decide) (by decide)
/-- C5 counterexample: the claim has every present title/minSalary filter
yield its fragment, but the code guards each block with JS truthiness;
{minSalary: 0} passes validation yet produces no fragment and no bound
value, while the claim prescribes "salary >= $1" with bound value 0. -/
theorem c5_counterexample :
    jobGetByFilter [("minSalary", JsValue.num 0)] = Except.ok ("", []) ∧
    jobBuildLit [("minSalary", JsValue.num 0)] = ("salary >= $1", [JsValue.num 0]) ∧
    (("", ([] : List JsValue)) ≠ ("salary >= $1", [JsValue.num 0])) :=
  ⟨by decide, by decide, by decide⟩

/-- C5 (amended): on a jobs FilterPayload whose keys all lie in
{title, minSalary, hasEquity}, Job.getByFilter builds its fragments in the
fixed order title, minSalary, hasEquity regardless of payload key order:
title, when present with a truthy value, yields `title ILIKE $<n>` with
the value wrapped as %value%; minSalary, when present with a truthy value,
yields `salary >= $<n>` with the value as-is; hasEquity yields the
parameterless fragment `equity IS NOT NULL AND equity > 0` exactly when
its value is strictly the boolean true; fragments are joined with
" AND ". -/
theorem c5_jobs_fragments (f : List (String × JsValue))
    (hkeys : ∀ kv ∈ f, kv.1 ∈ (["title", "minSalary", "hasEquity"] : List String)) :
    jobGetByFilter f = Except.ok (jobBuildTr f) := by
  have hall : f.all (fun kv => jobKeyOk kv.1) = true :=
    List.all_eq_true.mpr (fun kv hkv => (jobKeyOk_iff kv.1).mpr (hkeys kv hkv))
  exact jobGetByFilter_build f hall (jobValid_equity_none f (List.all_eq_true.mp hall))

/-- C5 witness: the amended theorem applied to a payload holding all three
jobs filters in scrambled key order. -/
theorem c5_witness :
    jobGetByFilter
        [("hasEquity", JsValue.bool true), ("minSalary", JsValue.num 20),
          ("title", JsValue.str "j")] =
      Except.ok (jobBuildTr
        [("hasEquity", JsValue.bool true), ("minSalary", JsValue.num 20),
          ("title", JsValue.str "j")]) :=
  c5_jobs_fragments _ (by decide)

/-- C6 counterexample: the claim has every present recognized companies
filter produce its fragment and bound value, but the code guards each
block with JS truthiness; {maxEmployees: 0} passes validation yet produces
no fragment and no bound value, while the claim prescribes
"num_employees <= $1" with bound value 0. -/
theorem c6_counterexample :
    companyGetByFilter [("maxEmployees", JsValue.num 0)] = Except.ok ("", []) ∧
    companyBuildLit [("maxEmployees", JsValue.num 0)] =
      ("num_employees <= $1", [JsValue.num 0]) ∧
    (("", ([] : List JsValue)) ≠ ("num_employees <= $1", [JsValue.num 0])) :=
  ⟨by decide, by decide, by decide⟩

/-- C6 (amended): on a companies FilterPayload that passes validation
(keys allow-listed; maxEmployees/minEmployees numeric when present and not
violating the max/min check), each recognized filter present with a truthy
value produces its fragment and bound value — name pushes %value% and
appends `name ILIKE $<n>`, maxEmployees pushes the value and appends
`num_employees <= $<n>`, minEmployees pushes the value and appends
`num_employees >= $<n>` — in the fixed order name, maxEmployees,
minEmployees. -/
theorem c6_company_fragments (f : List (String × JsValue))
    (hkeys : ∀ kv ∈ f, kv.1 ∈ (["name", "maxEmployees", "minEmployees"] : List String))
    (hnum : ∀ k ∈ (["maxEmployees", "minEmployees"] : List String),
        ∀ v, getProp f k = some v → ∃ q : ℚ, v = JsValue.num q)
    (hsem : ∀ qmax qmin : ℚ, getProp f "maxEmployees" = some (JsValue.num qmax) →
        getProp f "minEmployees" = some (JsValue.num qmin) → ¬ qmax < qmin) :
    companyGetByFilter f = Except.ok (companyBuildTr f) := by
  have hall : f.all (fun kv => companyKeyOk kv.1) = true :=
    List.all_eq_true.mpr (fun kv hkv => (companyKeyOk_iff kv.1).mpr (hkeys kv hkv))
  have hlt : jsLtOpt (getProp f "maxEmployees") (getProp f "minEmployees") = false := by
    cases hmax : getProp f "maxEmployees" with
    | none => exact jsLtOpt_none_left _
    | some v =>
        cases hmin : getProp f "minEmployees" with
        | none => exact jsLtOpt_none_right _
        | some w =>
            obtain ⟨qa, rfl⟩ := hnum "maxEmployees" (by decide) v hmax
            obtain ⟨qb, rfl⟩ := hnum "minEmployees" (by decide) w hmin
            simpa [jsLtOpt] using hsem qa qb hmax hmin
  exact companyGetByFilter_build f hall hlt

/-- C6 witness: the amended theorem applied to a payload holding all three
companies filters (with max ≥ min). -/
theorem c6_witness :
    companyGetByFilter
        [("name", JsValue.str "net"), ("minEmployees", JsValue.num 10),
          ("maxEmployees", JsValue.num 100)] =
      Except.ok (companyBuildTr
        [("name", JsValue.str "net"), ("minEmployees", JsValue.num 10),
          ("maxEmployees", JsValue.num 100)]) := by
  refine c6_company_fragments _ (by decide) ?_ ?_
  · intro k hk v hv
    have hk2 : k = "maxEmployees" ∨ k = "minEmployees" := by simpa using hk
    rcases hk2 with rfl | rfl
    · rw [show getProp
          [("name", JsValue.str "net"), ("minEmployees", JsValue.num 10),
            ("maxEmployees", JsValue.num 100)] "maxEmployees" =
          some (JsValue.num 100) from rfl] at hv
      exact ⟨100, (Option.some.inj hv).symm⟩
    · rw [show getProp
          [("name", JsValue.str "net"), ("minEmployees", JsValue.num 10),
            ("maxEmployees", JsValue.num 100)] "minEmployees" =
          some (JsValue.num 10) from rfl] at hv
      exact ⟨10, (Option.some.inj hv).symm⟩
  · intro qmax qmin hmax hmin
    rw [show getProp
        [("name", JsValue.str "net"), ("minEmployees", JsValue.num 10),
          ("maxEmployees", JsValue.num 100)] "maxEmployees" =
        some (JsValue.num 100) from rfl] at hmax
    rw [show getProp
        [("name", JsValue.str "net"), ("minEmployees", JsValue.num 10),
          ("maxEmployees", JsValue.num 100)] "minEmployees" =
        some (JsValue.num 10) from rfl] at hmin
    have e1 : (100 : ℚ) = qmax := JsValue.num.inj (Option.some.inj hmax)
    have e2 : (10 : ℚ) = qmin := JsValue.num.inj (Option.some.inj hmin)
    rw [← e1, ← e2]
    decide
/-- C2: whenever a builder succeeds, the positional placeholders of the
returned clause are exactly $1..$n in order of appearance with
n = values.length, so the Nth placeholder is bound to the Nth value; a
fragment with no placeholder (the jobs hasEquity fragment) contributes no
value.  Placeholders are read SQL-lexically: text inside double-quoted
identifiers does not count.  The SET-clause conjunct assumes the resolved
column names contain no double-quote character — the spec's
trusted-column-name caller obligation (§4.1). -/
theorem c2_placeholders :
    (∀ d m r, sqlForPartialUpdate d m = Except.ok r →
        (∀ k ∈ d.map Prod.fst, '"' ∉ (resolveCol m k).data) →
        extractPH r.1 = (List.range' 1 r.2.length).map natRepr) ∧
    (∀ f r, companyGetByFilter f = Except.ok r →
        extractPH r.1 = (List.range' 1 r.2.length).map natRepr) ∧
    (∀ f r, jobGetByFilter f = Except.ok r →
        extractPH r.1 = (List.range' 1 r.2.length).map natRepr) := by
  refine ⟨?_, ?_, ?_⟩
  · intro d m r hok hq
    cases d with
    | nil =>
        rw [sqlForPartialUpdate_empty] at hok
        exact absurd hok (by simp)
    | cons kv d0 =>
        rw [sqlForPartialUpdate_ok (kv :: d0) m (by simp)] at hok
        obtain rfl := (Except.ok.inj hok)
        unfold sqlForPartialUpdateSpecAmended
        rw [extractPH_joinSep_assignments (resolveCol m) ((kv :: d0).map Prod.fst) 0 hq]
        simp
  · intro f r hok
    cases hall : f.all (fun kv => companyKeyOk kv.1) with
    | false =>
        unfold companyGetByFilter at hok
        rw [hall] at hok
        simp at hok
    | true =>
        cases hlt : jsLtOpt (getProp f "maxEmployees") (getProp f "minEmployees") with
        | true =>
            unfold companyGetByFilter at hok
            rw [hall, hlt] at hok
            simp at hok
        | false =>
            rw [companyGetByFilter_build f hall hlt] at hok
            obtain rfl := (Except.ok.inj hok)
            rcases h1 : truthyProp f "name" with _ | v1 <;>
            rcases h2 : truthyProp f "maxEmployees" with _ | v2 <;>
            rcases h3 : truthyProp f "minEmployees" with _ | v3 <;>
              simp [companyBuildTr, companyPartsTr, h1, h2, h3, buildParts, joinSep] <;>
              decide
  · intro f r hok
    cases hall : f.all (fun kv => jobKeyOk kv.1) with
    | false =>
        unfold jobGetByFilter at hok
        rw [hall] at hok
        simp at hok
    | true =>
        rw [jobGetByFilter_build f hall
          (jobValid_equity_none f (List.all_eq_true.mp hall))] at hok
        obtain rfl := (Except.ok.inj hok)
        rcases h1 : truthyProp f "title" with _ | v1 <;>
        rcases h2 : truthyProp f "minSalary" with _ | v2 <;>
        by_cases h3 : getProp f "hasEquity" = some (JsValue.bool true) <;>
          simp [jobBuildTr, jobPartsTr, h1, h2, h3, buildParts, joinSep] <;>
          decide

/-- C2 witness: the invariant applied to a concrete success of each of the
three builders. -/
theorem c2_witness :
    extractPH "\"first_name\"=$1, \"last_name\"=$2" =
      (List.range' 1 2).map natRepr ∧
    extractPH "name ILIKE $1 AND num_employees >= $2" =
      (List.range' 1 2).map natRepr ∧
    extractPH "title ILIKE $1 AND equity IS NOT NULL AND equity > 0" =
      (List.range' 1 1).map natRepr :=
  ⟨c2_placeholders.1
      [("firstname", JsValue.str "Max"), ("lastname", JsValue.str "Smith")]
      [("firstname", JsValue.str "first_name"), ("lastname", JsValue.str "last_name")]
      ("\"first_name\"=$1, \"last_name\"=$2", [JsValue.str "Max", JsValue.str "Smith"])
      (by decide) (by decide),
   c2_placeholders.2.1
      [("name", JsValue.str "net"), ("minEmployees", JsValue.num 10)]
      ("name ILIKE $1 AND num_employees >= $2", [JsValue.str "%net%", JsValue.num 10])
      (by decide),
   c2_placeholders.2.2
      [("title", JsValue.str "j"), ("hasEquity", JsValue.bool true)]
      ("title ILIKE $1 AND equity IS NOT NULL AND equity > 0", [JsValue.str "%j%"])
      (by decide)⟩
